import Mathlib

/-!
Shallow embedding of the hexalife core (`src/gameLogic.ts`, types from
`src/types.ts`) and proofs of the specified properties.

A cell is `{ age, wealth }`; the data model declares `age : integer ≥ 0`
(0 = dead, ≥ 1 = alive), so `age` is embedded as `Nat` and `wealth` as `Int`.
A grid is a row-major list of rows of cells.  TypeScript `for` loops that
build a fresh grid by index become maps over `List.range`; the in-place
assignments `newGrid[row][col] = c` after a deep copy become `List.set`.
`wealthRules[n] ?? 0` becomes `List.getD rules n 0`, and the pluggable
`randomFn : () -> number` becomes a stream of rationals indexed by the
call counter (calls happen in row-major order).
-/

namespace HexaLife

/-- `CellData` from `types.ts`: `age` (0 = dead, 1+ = generations alive)
and `wealth`. -/
structure CellData where
  age : Nat
  wealth : Int
deriving DecidableEq, Repr

/-- A grid is a list of rows (row-major), as `CellData[][]`. -/
abbrev Grid := List (List CellData)

/-- `WealthRules` from `types.ts`: wealth delta per neighbor count. -/
abbrev WealthRules := List Int

/-- `DEFAULT_STARTING_WEALTH` from `types.ts`. -/
def DEFAULT_STARTING_WEALTH : Int := 10

/-- `defaultWealthRules` from `gameLogic.ts`. -/
def defaultWealthRules : WealthRules := [-1, -3, -1, 1, -1, -2, -3]

/-- `createEmptyCell` from `gameLogic.ts`. -/
def createEmptyCell : CellData := ⟨0, 0⟩

/-- `createAliveCell` from `gameLogic.ts`. -/
def createAliveCell (startingWealth : Int) : CellData := ⟨1, startingWealth⟩

/-- `createEmptyGrid` from `gameLogic.ts`: `height` independent rows of
`width` fresh empty cells. -/
def createEmptyGrid (width height : Nat) : Grid :=
  List.replicate height (List.replicate width createEmptyCell)

/-- `getHexNeighborOffsets` from `gameLogic.ts` (odd-r horizontal layout),
offsets as `(Δrow, Δcol)` in source order. -/
def getHexNeighborOffsets (isOddRow : Bool) : List (Int × Int) :=
  if isOddRow then
    [(-1, 0), (-1, 1),
     (0, -1), (0, 1),
     (1, 0), (1, 1)]
  else
    [(-1, -1), (-1, 0),
     (0, -1), (0, 1),
     (1, -1), (1, 0)]

/-- Row `r` of a grid (`grid[r]`), empty when out of bounds. -/
def rowAt (g : Grid) (r : Nat) : List CellData := (g[r]?).getD []

/-- Cell at `(r, c)` (`grid[r][c]`), dead when out of bounds. -/
def cellAt (g : Grid) (r c : Nat) : CellData :=
  ((rowAt g r)[c]?).getD createEmptyCell

/-- `grid[0].length`, the width the source reads off the first row
(0 for an empty grid, matching `grid[0]?.length ?? 0`). -/
def gridWidth (g : Grid) : Nat := (g.headD []).length

/-- The loop-body test of `getNeighborCount`: offset target is in bounds
and the cell there has `age > 0`. -/
def isLiveNeighbor (g : Grid) (row col : Nat) (d : Int × Int) : Bool :=
  let newRow : Int := (row : Int) + d.1
  let newCol : Int := (col : Int) + d.2
  decide (0 ≤ newRow ∧ newRow < (g.length : Int) ∧
          0 ≤ newCol ∧ newCol < (gridWidth g : Int) ∧
          (cellAt g newRow.toNat newCol.toNat).age > 0)

/-- `getNeighborCount` from `gameLogic.ts`: fold of the counting loop over
the parity-appropriate offsets. -/
def getNeighborCount (g : Grid) (row col : Nat) : Nat :=
  let isOddRow := row % 2 == 1
  let neighbors := getHexNeighborOffsets isOddRow
  neighbors.foldl (fun count d => if isLiveNeighbor g row col d then count + 1 else count) 0

/-- Build a grid by position, the rendering of a `for row / for col` loop
that fills a fresh grid. -/
def mkGrid (height width : Nat) (f : Nat → Nat → CellData) : Grid :=
  (List.range height).map (fun r => (List.range width).map (fun c => f r c))

/-- The per-position body of `computeNextGeneration`. -/
def nextCell (g : Grid) (wealthRules : WealthRules) (startingWealth : Int)
    (row col : Nat) : CellData :=
  let neighborCount := getNeighborCount g row col
  let currentCell := cellAt g row col
  let wealthChange := wealthRules.getD neighborCount 0
  if currentCell.age > 0 then
    let newWealth := currentCell.wealth + wealthChange
    if newWealth > 0 then ⟨currentCell.age + 1, newWealth⟩ else createEmptyCell
  else
    if wealthChange > 0 then ⟨1, startingWealth⟩ else createEmptyCell

/-- `computeNextGeneration` from `gameLogic.ts`. -/
def computeNextGeneration (g : Grid) (wealthRules : WealthRules)
    (startingWealth : Int) : Grid :=
  mkGrid g.length (gridWidth g) (nextCell g wealthRules startingWealth)

/-- `toggleCell` from `gameLogic.ts`: deep copy, then replace the target
cell (kill if alive, else bring to life with the starting wealth). -/
def toggleCell (g : Grid) (row col : Nat) (startingWealth : Int) : Grid :=
  let currentCell := cellAt g row col
  g.set row ((rowAt g row).set col
    (if currentCell.age > 0 then createEmptyCell else createAliveCell startingWealth))

/-- `setCell` from `gameLogic.ts`: returns the input grid itself when the
alive status already equals `value`, else a copy with the one cell set. -/
def setCell (g : Grid) (row col : Nat) (value : Bool) (startingWealth : Int) : Grid :=
  let currentAlive := decide ((cellAt g row col).age > 0)
  if currentAlive = value then g
  else
    g.set row ((rowAt g row).set col
      (if value then createAliveCell startingWealth else createEmptyCell))

/-- `resizeGrid` from `gameLogic.ts`: fresh dead grid of the new size, with
the overlap rectangle copied from the old grid. -/
def resizeGrid (g : Grid) (newWidth newHeight : Nat) : Grid :=
  mkGrid newHeight newWidth (fun r c =>
    if r < min g.length newHeight ∧ c < min (gridWidth g) newWidth
    then cellAt g r c else createEmptyCell)

/-- `randomizeGrid` from `gameLogic.ts`: one draw per position, row-major;
alive with the starting wealth iff the draw is `< density`.  The injectable
`randomFn` is modelled as a stream indexed by the call counter. -/
def randomizeGrid (width height : Nat) (density : ℚ) (startingWealth : Int)
    (randomFn : Nat → ℚ) : Grid :=
  mkGrid height width (fun r c =>
    if randomFn (r * width + c) < density
    then createAliveCell startingWealth else createEmptyCell)

/-- `isAlive` from `gameLogic.ts`. -/
def isAlive (c : CellData) : Bool := decide (c.age > 0)

/-- Number of live cells of a grid: the check the external driver runs
("does any cell in the resulting grid have age > 0"). -/
def liveCount (g : Grid) : Nat :=
  (g.map (fun row => row.countP isAlive)).sum

/-! ### Helper lemmas about the grid-building and indexing primitives -/

theorem length_mkGrid (h w : Nat) (f : Nat → Nat → CellData) :
    (mkGrid h w f).length = h := by
  simp [mkGrid]

theorem mem_mkGrid_length (h w : Nat) (f : Nat → Nat → CellData) :
    ∀ row ∈ mkGrid h w f, row.length = w := by
  intro row hrow
  simp only [mkGrid, List.mem_map, List.mem_range] at hrow
  obtain ⟨r, _, rfl⟩ := hrow
  simp

theorem rowAt_mkGrid (h w : Nat) (f : Nat → Nat → CellData) (r : Nat) (hr : r < h) :
    rowAt (mkGrid h w f) r = (List.range w).map (fun c => f r c) := by
  simp [rowAt, mkGrid, List.getElem?_map, List.getElem?_range hr]

theorem cellAt_mkGrid (h w : Nat) (f : Nat → Nat → CellData) (r c : Nat)
    (hr : r < h) (hc : c < w) :
    cellAt (mkGrid h w f) r c = f r c := by
  simp [cellAt, rowAt_mkGrid h w f r hr, List.getElem?_map, List.getElem?_range hc]

theorem foldl_count {α : Type} (p : α → Bool) :
    ∀ (l : List α) (n : Nat),
      l.foldl (fun count d => if p d then count + 1 else count) n = n + l.countP p := by
  intro l
  induction l with
  | nil => intro n; simp
  | cons a t ih =>
    intro n
    rw [List.foldl_cons, List.countP_cons, ih]
    by_cases hp : p a <;> simp [hp] <;> omega

theorem getNeighborCount_eq_countP (g : Grid) (row col : Nat) :
    getNeighborCount g row col =
      (getHexNeighborOffsets (row % 2 == 1)).countP (isLiveNeighbor g row col) := by
  simp [getNeighborCount, foldl_count]

theorem mem_of_rowAt_mem (g : Grid) (r : Nat) {x : CellData} (hx : x ∈ rowAt g r) :
    ∃ row ∈ g, x ∈ row := by
  unfold rowAt at hx
  cases hrow : g[r]? with
  | none => rw [hrow] at hx; simp at hx
  | some row =>
    rw [hrow] at hx
    obtain ⟨hn, rfl⟩ := List.getElem?_eq_some.mp hrow
    exact ⟨g[r], List.getElem_mem hn, hx⟩

/-! ### Claim theorems -/

/-- C2: for every grid and in-bounds position, `getNeighborCount` is at most 6
(and at least 0, trivially for a natural number), and equals the number of the
six parity-appropriate offsets whose target is in bounds with a live cell;
out-of-bounds targets contribute nothing since the counted predicate requires
the target to be in bounds. -/
theorem getNeighborCount_bounds_and_spec (g : Grid) (row col : Nat)
    (hr : row < g.length) (hc : col < gridWidth g) :
    getNeighborCount g row col ≤ 6 ∧
    getNeighborCount g row col =
      ((getHexNeighborOffsets (row % 2 == 1)).filter (isLiveNeighbor g row col)).length := by
  constructor
  · rw [getNeighborCount_eq_countP]
    calc (getHexNeighborOffsets (row % 2 == 1)).countP (isLiveNeighbor g row col)
        ≤ (getHexNeighborOffsets (row % 2 == 1)).length := List.countP_le_length _
      _ = 6 := by cases h : (row % 2 == 1) <;> rfl
  · rw [getNeighborCount_eq_countP, List.countP_eq_length_filter]

/-- C2 witness: the bound and count formula at a concrete grid and position. -/
theorem getNeighborCount_bounds_and_spec_witness :
    0 < ([[⟨1, 10⟩, ⟨0, 0⟩], [⟨1, 3⟩, ⟨1, 4⟩]] : Grid).length ∧
    0 < gridWidth ([[⟨1, 10⟩, ⟨0, 0⟩], [⟨1, 3⟩, ⟨1, 4⟩]] : Grid) ∧
    (getNeighborCount [[⟨1, 10⟩, ⟨0, 0⟩], [⟨1, 3⟩, ⟨1, 4⟩]] 0 0 ≤ 6 ∧
     getNeighborCount [[⟨1, 10⟩, ⟨0, 0⟩], [⟨1, 3⟩, ⟨1, 4⟩]] 0 0 =
       ((getHexNeighborOffsets ((0 : Nat) % 2 == 1)).filter
         (isLiveNeighbor [[⟨1, 10⟩, ⟨0, 0⟩], [⟨1, 3⟩, ⟨1, 4⟩]] 0 0)).length) :=
  ⟨by decide, by decide,
   getNeighborCount_bounds_and_spec [[⟨1, 10⟩, ⟨0, 0⟩], [⟨1, 3⟩, ⟨1, 4⟩]] 0 0
     (by decide) (by decide)⟩

/-- C3: each parity's offset table has exactly six entries, and as sets the
tables are exactly the specified even-row and odd-row neighbor sets. -/
theorem getHexNeighborOffsets_sets :
    (getHexNeighborOffsets false).length = 6 ∧
    (getHexNeighborOffsets true).length = 6 ∧
    (getHexNeighborOffsets false).toFinset =
      ({(-1, -1), (-1, 0), (0, -1), (0, 1), (1, -1), (1, 0)} : Finset (Int × Int)) ∧
    (getHexNeighborOffsets true).toFinset =
      ({(-1, 0), (-1, 1), (0, -1), (0, 1), (1, 0), (1, 1)} : Finset (Int × Int)) := by
  refine ⟨rfl, rfl, ?_, ?_⟩ <;> decide

/-- C1: for a non-empty grid and a length-7 rules table, the next generation
has the same height and width, and each position is determined pointwise from
the input snapshot: with `n` the live-neighbor count and `delta = rules[n]`
(here `rules.getD n 0`, which equals `rules[n]` since `n ≤ 6 < 7`), a live
cell survives as `⟨age+1, wealth+delta⟩` when `wealth + delta > 0` and
otherwise dies to `⟨0, 0⟩` with its wealth discarded; a dead cell is born as
`⟨1, startingWealth⟩` exactly when `delta > 0`, else stays `⟨0, 0⟩`. -/
theorem computeNextGeneration_spec (g : Grid) (rules : WealthRules) (sw : Int)
    (hg : g ≠ []) (hrules : rules.length = 7) (r c : Nat)
    (hr : r < g.length) (hc : c < gridWidth g) :
    (computeNextGeneration g rules sw).length = g.length ∧
    (∀ row ∈ computeNextGeneration g rules sw, row.length = gridWidth g) ∧
    getNeighborCount g r c < rules.length ∧
    cellAt (computeNextGeneration g rules sw) r c =
      (let n := getNeighborCount g r c
       let delta := rules.getD n 0
       let cur := cellAt g r c
       if cur.age > 0 then
         if cur.wealth + delta > 0 then ⟨cur.age + 1, cur.wealth + delta⟩
         else ⟨0, 0⟩
       else if delta > 0 then ⟨1, sw⟩ else ⟨0, 0⟩) := by
  refine ⟨length_mkGrid _ _ _, mem_mkGrid_length _ _ _, ?_, ?_⟩
  · have hb := (getNeighborCount_bounds_and_spec g r c hr hc).1
    omega
  · rw [computeNextGeneration, cellAt_mkGrid _ _ _ r c hr hc]
    rfl

/-- C1 witness: the pointwise update rule at a concrete grid, rules table and
position (a live cell with one live neighbor loses 3 wealth and survives). -/
theorem computeNextGeneration_spec_witness :
    ([[⟨1, 10⟩, ⟨1, 4⟩]] : Grid) ≠ [] ∧
    defaultWealthRules.length = 7 ∧
    0 < ([[⟨1, 10⟩, ⟨1, 4⟩]] : Grid).length ∧
    0 < gridWidth [[⟨1, 10⟩, ⟨1, 4⟩]] ∧
    cellAt (computeNextGeneration [[⟨1, 10⟩, ⟨1, 4⟩]] defaultWealthRules 10) 0 0 =
      (let n := getNeighborCount [[⟨1, 10⟩, ⟨1, 4⟩]] 0 0
       let delta := defaultWealthRules.getD n 0
       let cur := cellAt [[⟨1, 10⟩, ⟨1, 4⟩]] 0 0
       if cur.age > 0 then
         if cur.wealth + delta > 0 then ⟨cur.age + 1, cur.wealth + delta⟩
         else ⟨0, 0⟩
       else if delta > 0 then ⟨1, 10⟩ else ⟨0, 0⟩) :=
  ⟨by decide, by decide, by decide, by decide,
   (computeNextGeneration_spec [[⟨1, 10⟩, ⟨1, 4⟩]] defaultWealthRules 10
     (by decide) (by decide) 0 0 (by decide) (by decide)).2.2.2⟩

/-- C10: `computeNextGeneration` is total for rules tables of any length: the
output always has the input's height and width, and whenever a position's
live-neighbor count has no entry in the table (`rules.length ≤ n`, rendering
`wealthRules[n] ?? 0`), the applied delta is 0 — a live cell keeps its wealth
(surviving exactly when it is positive) and a dead cell stays dead. -/
theorem computeNextGeneration_total (g : Grid) (rules : WealthRules) (sw : Int)
    (hg : g ≠ []) :
    (computeNextGeneration g rules sw).length = g.length ∧
    (∀ row ∈ computeNextGeneration g rules sw, row.length = gridWidth g) ∧
    (∀ r c, r < g.length → c < gridWidth g →
      rules.length ≤ getNeighborCount g r c →
      cellAt (computeNextGeneration g rules sw) r c =
        (let cur := cellAt g r c
         if cur.age > 0 then
           if cur.wealth > 0 then ⟨cur.age + 1, cur.wealth⟩ else ⟨0, 0⟩
         else ⟨0, 0⟩)) := by
  refine ⟨length_mkGrid _ _ _, mem_mkGrid_length _ _ _, ?_⟩
  intro r c hr hc hn
  rw [computeNextGeneration, cellAt_mkGrid _ _ _ r c hr hc]
  have hd : rules.getD (getNeighborCount g r c) 0 = 0 := by
    rw [List.getD_eq_getElem?_getD, List.getElem?_eq_none hn]
    rfl
  simp only [nextCell, hd, Int.add_zero, createEmptyCell]
  norm_num

/-- C10 witness: with an empty rules table every neighbor count is out of
range; a live isolated cell with positive wealth survives unchanged. -/
theorem computeNextGeneration_total_witness :
    ([[⟨2, 5⟩]] : Grid) ≠ [] ∧
    ([] : WealthRules).length ≤ getNeighborCount [[⟨2, 5⟩]] 0 0 ∧
    cellAt (computeNextGeneration [[⟨2, 5⟩]] [] 7) 0 0 =
      (let cur := cellAt ([[⟨2, 5⟩]] : Grid) 0 0
       if cur.age > 0 then
         if cur.wealth > 0 then ⟨cur.age + 1, cur.wealth⟩ else ⟨0, 0⟩
       else ⟨0, 0⟩) :=
  ⟨by decide, by decide,
   (computeNextGeneration_total [[⟨2, 5⟩]] [] 7 (by decide)).2.2 0 0
     (by decide) (by decide) (by decide)⟩

/-- C5: `resizeGrid` yields `newHeight` rows of `newWidth` cells; inside the
overlap rectangle `[0, min(oldHeight,newHeight)) × [0, min(oldWidth,newWidth))`
the cell (age and wealth) is copied exactly from the input, and every position
outside the overlap is dead. -/
theorem resizeGrid_spec (g : Grid) (newWidth newHeight : Nat) (r c : Nat)
    (hr : r < newHeight) (hc : c < newWidth) :
    (resizeGrid g newWidth newHeight).length = newHeight ∧
    (∀ row ∈ resizeGrid g newWidth newHeight, row.length = newWidth) ∧
    cellAt (resizeGrid g newWidth newHeight) r c =
      (if r < min g.length newHeight ∧ c < min (gridWidth g) newWidth
       then cellAt g r c else ⟨0, 0⟩) := by
  refine ⟨length_mkGrid _ _ _, mem_mkGrid_length _ _ _, ?_⟩
  rw [resizeGrid, cellAt_mkGrid _ _ _ r c hr hc]
  rfl

/-- C5 witness: shrinking a 5×5 grid with a live cell at (1,1) to 3×3 keeps
that cell; position (2,2) outside the old live area is dead. -/
theorem resizeGrid_spec_witness :
    (1 < 3 ∧ 1 < 3) ∧
    cellAt (resizeGrid (setCell (createEmptyGrid 5 5) 1 1 true 10) 3 3) 1 1 =
      (if 1 < min (setCell (createEmptyGrid 5 5) 1 1 true 10).length 3 ∧
          1 < min (gridWidth (setCell (createEmptyGrid 5 5) 1 1 true 10)) 3
       then cellAt (setCell (createEmptyGrid 5 5) 1 1 true 10) 1 1 else ⟨0, 0⟩) :=
  ⟨⟨by decide, by decide⟩,
   (resizeGrid_spec (setCell (createEmptyGrid 5 5) 1 1 true 10) 3 3 1 1
     (by decide) (by decide)).2.2⟩

/-- C6: for a random source whose draws all lie in `[0, 1)`, `randomizeGrid`
builds a `height × width` grid whose cell at each position is alive with the
starting wealth exactly when that position's single draw is strictly below
`density`; density 0 gives a dead cell and density 1 a live cell at every
position, whatever the draws. -/
theorem randomizeGrid_spec (width height : Nat) (density : ℚ) (sw : Int)
    (randomFn : Nat → ℚ) (hrand : ∀ n, 0 ≤ randomFn n ∧ randomFn n < 1)
    (r c : Nat) (hr : r < height) (hc : c < width) :
    (randomizeGrid width height density sw randomFn).length = height ∧
    (∀ row ∈ randomizeGrid width height density sw randomFn, row.length = width) ∧
    cellAt (randomizeGrid width height density sw randomFn) r c =
      (if randomFn (r * width + c) < density then ⟨1, sw⟩ else ⟨0, 0⟩) ∧
    (density = 0 →
      cellAt (randomizeGrid width height density sw randomFn) r c = ⟨0, 0⟩) ∧
    (density = 1 →
      cellAt (randomizeGrid width height density sw randomFn) r c = ⟨1, sw⟩) := by
  have hcell : cellAt (randomizeGrid width height density sw randomFn) r c =
      (if randomFn (r * width + c) < density then ⟨1, sw⟩ else ⟨0, 0⟩) := by
    rw [randomizeGrid, cellAt_mkGrid _ _ _ r c hr hc]
    rfl
  refine ⟨length_mkGrid _ _ _, mem_mkGrid_length _ _ _, hcell, ?_, ?_⟩
  · intro h0
    rw [hcell, h0, if_neg (not_lt.mpr (hrand (r * width + c)).1)]
  · intro h1
    rw [hcell, h1, if_pos (hrand (r * width + c)).2]

/-- C6 witness: a concrete two-value stream in `[0, 1)` on a 2×1 grid; the
draw below the density 1/2 gives a live cell. -/
theorem randomizeGrid_spec_witness :
    (∀ n : Nat, 0 ≤ (if n = 0 then (1 : ℚ) / 4 else 3 / 4) ∧
      (if n = 0 then (1 : ℚ) / 4 else 3 / 4) < 1) ∧
    cellAt (randomizeGrid 2 1 (1 / 2) 10 (fun n => if n = 0 then (1 : ℚ) / 4 else 3 / 4)) 0 0 =
      (if (if (0 : Nat) * 2 + 0 = 0 then (1 : ℚ) / 4 else 3 / 4) < 1 / 2
       then ⟨1, 10⟩ else ⟨0, 0⟩) :=
  ⟨fun n => by by_cases hn : n = 0 <;> norm_num [hn],
   (randomizeGrid_spec 2 1 (1 / 2) 10 (fun n => if n = 0 then (1 : ℚ) / 4 else 3 / 4)
     (fun n => by by_cases hn : n = 0 <;> norm_num [hn]) 0 0 (by decide) (by decide)).2.2.1⟩

theorem rowAt_set_self (g : Grid) (r : Nat) (row : List CellData) (hr : r < g.length) :
    rowAt (g.set r row) r = row := by
  unfold rowAt
  rw [List.getElem?_set]
  simp [hr]

theorem cellAt_set_self (g : Grid) (r c : Nat) (cell : CellData)
    (hr : r < g.length) (hc : c < (rowAt g r).length) :
    cellAt (g.set r ((rowAt g r).set c cell)) r c = cell := by
  unfold cellAt
  rw [rowAt_set_self g r _ hr, List.getElem?_set]
  simp [hc]

theorem cellAt_set_other (g : Grid) (r c : Nat) (cell : CellData) (r' c' : Nat)
    (hne : ¬(r' = r ∧ c' = c)) :
    cellAt (g.set r ((rowAt g r).set c cell)) r' c' = cellAt g r' c' := by
  by_cases hrr : r' = r
  · subst hrr
    have hcc : c ≠ c' := fun h => hne ⟨rfl, h.symm⟩
    by_cases hlen : r' < g.length
    · unfold cellAt
      rw [rowAt_set_self g r' _ hlen, List.getElem?_set_ne hcc]
    · unfold cellAt rowAt
      rw [List.getElem?_set, List.getElem?_eq_none (Nat.le_of_not_lt hlen)]
      simp [hlen]
  · unfold cellAt rowAt
    rw [List.getElem?_set_ne (fun h => hrr h.symm)]

/-- C4: for an in-bounds position, `setCell` returns the input grid itself
(the "same reference" early return) exactly when the cell's alive status
already equals `value`; otherwise it returns a different grid in which the
target cell is `⟨1, startingWealth⟩` (for `value = true`) or `⟨0, 0⟩` (for
`value = false`) and every other position is unchanged. -/
theorem setCell_spec (g : Grid) (r c : Nat) (v : Bool) (sw : Int)
    (hr : r < g.length) (hc : c < (rowAt g r).length) :
    (setCell g r c v sw = g ↔ isAlive (cellAt g r c) = v) ∧
    (isAlive (cellAt g r c) ≠ v →
      setCell g r c v sw ≠ g ∧
      cellAt (setCell g r c v sw) r c = (if v then ⟨1, sw⟩ else ⟨0, 0⟩) ∧
      ∀ r' c', ¬(r' = r ∧ c' = c) →
        cellAt (setCell g r c v sw) r' c' = cellAt g r' c') := by
  by_cases hst : decide ((cellAt g r c).age > 0) = v
  · refine ⟨⟨fun _ => hst, fun _ => by simp [setCell, hst]⟩, fun hne => absurd hst hne⟩
  · have hset : setCell g r c v sw =
        g.set r ((rowAt g r).set c (if v then createAliveCell sw else createEmptyCell)) := by
      simp [setCell, hst]
    have hcell : cellAt (setCell g r c v sw) r c = (if v then ⟨1, sw⟩ else ⟨0, 0⟩) := by
      rw [hset, cellAt_set_self g r c _ hr hc]
      cases v <;> rfl
    have hneq : setCell g r c v sw ≠ g := by
      intro heq
      have hsame : cellAt (setCell g r c v sw) r c = cellAt g r c := by rw [heq]
      rw [hcell] at hsame
      cases v
      · have h0 : ¬(cellAt g r c).age = 0 := by simpa using hst
        have hage : (cellAt g r c).age > 0 := Nat.pos_of_ne_zero h0
        rw [← hsame] at hage
        simp at hage
      · have hage : ¬((cellAt g r c).age > 0) := by
          simpa using hst
        rw [← hsame] at hage
        simp at hage
    refine ⟨⟨fun heq => absurd heq hneq, fun hv => absurd hv hst⟩, fun _ => ⟨hneq, hcell, ?_⟩⟩
    intro r' c' hne'
    rw [hset, cellAt_set_other g r c _ r' c' hne']

/-- C4 witness: turning on a dead cell of a 1×2 grid yields a different grid
with the live cell at (0,0) and (0,1) unchanged. -/
theorem setCell_spec_witness :
    0 < ([[⟨0, 0⟩, ⟨3, 7⟩]] : Grid).length ∧
    0 < (rowAt [[⟨0, 0⟩, ⟨3, 7⟩]] 0).length ∧
    isAlive (cellAt [[⟨0, 0⟩, ⟨3, 7⟩]] 0 0) ≠ true ∧
    (setCell [[⟨0, 0⟩, ⟨3, 7⟩]] 0 0 true 10 ≠ [[⟨0, 0⟩, ⟨3, 7⟩]] ∧
     cellAt (setCell [[⟨0, 0⟩, ⟨3, 7⟩]] 0 0 true 10) 0 0 = (if true then ⟨1, 10⟩ else ⟨0, 0⟩) ∧
     ∀ r' c', ¬(r' = 0 ∧ c' = 0) →
       cellAt (setCell [[⟨0, 0⟩, ⟨3, 7⟩]] 0 0 true 10) r' c' =
         cellAt [[⟨0, 0⟩, ⟨3, 7⟩]] r' c') :=
  ⟨by decide, by decide, by decide,
   (setCell_spec [[⟨0, 0⟩, ⟨3, 7⟩]] 0 0 true 10 (by decide) (by decide)).2 (by decide)⟩

/-- C7: for an in-bounds position, `toggleCell` kills a live cell (to
`⟨0, 0⟩`) and revives a dead one (to `⟨1, startingWealth⟩`), leaves every
other position unchanged, and always returns a grid different from the input
(the source always deep-copies; here the toggled grid never equals the
input). -/
theorem toggleCell_spec (g : Grid) (r c : Nat) (sw : Int)
    (hr : r < g.length) (hc : c < (rowAt g r).length) :
    cellAt (toggleCell g r c sw) r c =
      (if (cellAt g r c).age > 0 then ⟨0, 0⟩ else ⟨1, sw⟩) ∧
    (∀ r' c', ¬(r' = r ∧ c' = c) →
      cellAt (toggleCell g r c sw) r' c' = cellAt g r' c') ∧
    toggleCell g r c sw ≠ g := by
  have hset : toggleCell g r c sw =
      g.set r ((rowAt g r).set c
        (if (cellAt g r c).age > 0 then createEmptyCell else createAliveCell sw)) := rfl
  have hcell : cellAt (toggleCell g r c sw) r c =
      (if (cellAt g r c).age > 0 then ⟨0, 0⟩ else ⟨1, sw⟩) := by
    rw [hset, cellAt_set_self g r c _ hr hc]
    by_cases h : (cellAt g r c).age > 0 <;> simp [h, createEmptyCell, createAliveCell]
  refine ⟨hcell, fun r' c' hne => by rw [hset, cellAt_set_other g r c _ r' c' hne], ?_⟩
  intro heq
  have hsame : cellAt (toggleCell g r c sw) r c = cellAt g r c := by rw [heq]
  rw [hcell] at hsame
  by_cases h : (cellAt g r c).age > 0
  · rw [if_pos h] at hsame
    rw [← hsame] at h
    simp at h
  · rw [if_neg h] at hsame
    rw [← hsame] at h
    simp at h

/-- C7 witness: toggling the live corner of a 2×2 grid kills it, leaves the
other positions unchanged, and yields a different grid. -/
theorem toggleCell_spec_witness :
    0 < ([[⟨2, 5⟩, ⟨0, 0⟩], [⟨0, 0⟩, ⟨1, 1⟩]] : Grid).length ∧
    0 < (rowAt [[⟨2, 5⟩, ⟨0, 0⟩], [⟨0, 0⟩, ⟨1, 1⟩]] 0).length ∧
    (cellAt (toggleCell [[⟨2, 5⟩, ⟨0, 0⟩], [⟨0, 0⟩, ⟨1, 1⟩]] 0 0 10) 0 0 =
       (if (cellAt [[⟨2, 5⟩, ⟨0, 0⟩], [⟨0, 0⟩, ⟨1, 1⟩]] 0 0).age > 0
        then ⟨0, 0⟩ else ⟨1, 10⟩) ∧
     (∀ r' c', ¬(r' = 0 ∧ c' = 0) →
       cellAt (toggleCell [[⟨2, 5⟩, ⟨0, 0⟩], [⟨0, 0⟩, ⟨1, 1⟩]] 0 0 10) r' c' =
         cellAt [[⟨2, 5⟩, ⟨0, 0⟩], [⟨0, 0⟩, ⟨1, 1⟩]] r' c') ∧
     toggleCell [[⟨2, 5⟩, ⟨0, 0⟩], [⟨0, 0⟩, ⟨1, 1⟩]] 0 0 10 ≠
       [[⟨2, 5⟩, ⟨0, 0⟩], [⟨0, 0⟩, ⟨1, 1⟩]]) :=
  ⟨by decide, by decide,
   toggleCell_spec [[⟨2, 5⟩, ⟨0, 0⟩], [⟨0, 0⟩, ⟨1, 1⟩]] 0 0 10 (by decide) (by decide)⟩

/-- One driver tick with the default rules and the default starting wealth. -/
def defaultStep (g : Grid) : Grid := computeNextGeneration g defaultWealthRules 10

/-- A 3×3 grid whose only live cell is `⟨1, 10⟩` at the center: a single
isolated cell with starting wealth 10 and no live neighbors. -/
def singleCellGrid : Grid :=
  [[⟨0, 0⟩, ⟨0, 0⟩, ⟨0, 0⟩],
   [⟨0, 0⟩, ⟨1, 10⟩, ⟨0, 0⟩],
   [⟨0, 0⟩, ⟨0, 0⟩, ⟨0, 0⟩]]

/-- C8: iterating the engine with rules `[-1,-3,-1,1,-1,-2,-3]` and starting
wealth 10 from a single isolated `⟨1, 10⟩` cell: at each of the first ten
states the grid has exactly one live cell (no birth ever happens), namely the
center with wealth `10 - k` after `k` steps (a decrease of 1 per step), so it
is still alive after step 9 with wealth 1 and dies exactly on the 10th step,
after which no cell is alive. -/
theorem extinction_scenario :
    (∀ k : Fin 10,
      cellAt (defaultStep^[(k : Nat)] singleCellGrid) 1 1 =
        ⟨(k : Nat) + 1, 10 - (k : Nat)⟩ ∧
      liveCount (defaultStep^[(k : Nat)] singleCellGrid) = 1) ∧
    liveCount (defaultStep^[10] singleCellGrid) = 0 := by decide

/-- The cell invariant of the data model: a dead cell carries no wealth
(`age = 0 → wealth = 0`; `age ≥ 0` holds by the `Nat` representation). -/
def cellInv (c : CellData) : Prop := c.age = 0 → c.wealth = 0

/-- Every cell of the grid satisfies the cell invariant. -/
def gridInv (g : Grid) : Prop := ∀ row ∈ g, ∀ c ∈ row, cellInv c

instance (c : CellData) : Decidable (cellInv c) := by
  unfold cellInv; infer_instance

instance (g : Grid) : Decidable (gridInv g) := by
  unfold gridInv; infer_instance

theorem cellInv_cellAt (g : Grid) (hg : gridInv g) (r c : Nat) :
    cellInv (cellAt g r c) := by
  unfold cellAt
  cases hrow : (rowAt g r)[c]? with
  | none => intro _; rfl
  | some cell =>
    simp only [Option.getD_some]
    have hmem : cell ∈ rowAt g r := by
      obtain ⟨hn, rfl⟩ := List.getElem?_eq_some.mp hrow
      exact List.getElem_mem hn
    obtain ⟨row, hrowg, hcell⟩ := mem_of_rowAt_mem g r hmem
    exact hg row hrowg cell hcell

theorem gridInv_mkGrid (h w : Nat) (f : Nat → Nat → CellData)
    (hf : ∀ r c, cellInv (f r c)) : gridInv (mkGrid h w f) := by
  intro row hrow cell hcell
  simp only [mkGrid, List.mem_map, List.mem_range] at hrow
  obtain ⟨r, _, rfl⟩ := hrow
  simp only [List.mem_map, List.mem_range] at hcell
  obtain ⟨c, _, rfl⟩ := hcell
  exact hf r c

theorem gridInv_set (g : Grid) (r c : Nat) (cell : CellData)
    (hg : gridInv g) (hcell : cellInv cell) :
    gridInv (g.set r ((rowAt g r).set c cell)) := by
  intro row hrow x hx
  rcases List.mem_or_eq_of_mem_set hrow with hrowg | rfl
  · exact hg row hrowg x hx
  · rcases List.mem_or_eq_of_mem_set hx with hxrow | rfl
    · obtain ⟨row', hrow', hx'⟩ := mem_of_rowAt_mem g r hxrow
      exact hg row' hrow' x hx'
    · exact hcell

theorem cellInv_nextCell (g : Grid) (rules : WealthRules) (sw : Int) (r c : Nat) :
    cellInv (nextCell g rules sw r c) := by
  unfold nextCell
  dsimp only
  split
  · split
    · intro h; simp at h
    · intro _; rfl
  · split
    · intro h; simp at h
    · intro _; rfl

/-- C9: the cell invariant (dead cells are exactly `⟨0, 0⟩`; ages are
non-negative by representation) is established unconditionally by
`createEmptyGrid` and `randomizeGrid`, holds unconditionally for the output
of `computeNextGeneration`, and is preserved from input to output by
`toggleCell`, `setCell` and `resizeGrid`. -/
theorem invariant_established_and_preserved :
    (∀ w h, gridInv (createEmptyGrid w h)) ∧
    (∀ w h d sw f, gridInv (randomizeGrid w h d sw f)) ∧
    (∀ g rules sw, gridInv g → gridInv (computeNextGeneration g rules sw)) ∧
    (∀ g r c sw, gridInv g → gridInv (toggleCell g r c sw)) ∧
    (∀ g r c v sw, gridInv g → gridInv (setCell g r c v sw)) ∧
    (∀ g w h, gridInv g → gridInv (resizeGrid g w h)) := by
  refine ⟨?_, ?_, ?_, ?_, ?_, ?_⟩
  · intro w h row hrow cell hcell
    rw [createEmptyGrid, List.mem_replicate] at hrow
    obtain ⟨-, rfl⟩ := hrow
    rw [List.mem_replicate] at hcell
    obtain ⟨-, rfl⟩ := hcell
    intro _; rfl
  · intro w h d sw f
    unfold randomizeGrid
    apply gridInv_mkGrid
    intro r c
    dsimp only
    split
    · intro h1; simp [createAliveCell] at h1
    · intro _; rfl
  · intro g rules sw _
    unfold computeNextGeneration
    exact gridInv_mkGrid _ _ _ (cellInv_nextCell g rules sw)
  · intro g r c sw hg
    unfold toggleCell
    apply gridInv_set g r c _ hg
    split
    · intro _; rfl
    · intro h1; simp [createAliveCell] at h1
  · intro g r c v sw hg
    by_cases hst : decide ((cellAt g r c).age > 0) = v
    · simpa [setCell, hst] using hg
    · have hset : setCell g r c v sw =
          g.set r ((rowAt g r).set c (if v then createAliveCell sw else createEmptyCell)) := by
        simp [setCell, hst]
      rw [hset]
      apply gridInv_set g r c _ hg
      split
      · intro h1; simp [createAliveCell] at h1
      · intro _; rfl
  · intro g w h hg
    unfold resizeGrid
    apply gridInv_mkGrid
    intro r c
    dsimp only
    split
    · exact cellInv_cellAt g hg r c
    · intro _; rfl

/-- C9 witness: the invariant holds for a concrete grid and is carried to the
grid obtained by toggling its live cell. -/
theorem invariant_established_and_preserved_witness :
    gridInv ([[⟨1, 5⟩, ⟨0, 0⟩]] : Grid) ∧
    gridInv (toggleCell [[⟨1, 5⟩, ⟨0, 0⟩]] 0 0 10) :=
  ⟨by decide,
   invariant_established_and_preserved.2.2.2.1 [[⟨1, 5⟩, ⟨0, 0⟩]] 0 0 10 (by decide)⟩

end HexaLife
